import Mathlib

/-!
Shallow embedding of `final_full_article_scraper.py` (FinRAG repository).

The embedding models the three pure/deterministic cores of the scraper and the
orchestration loop:

* `getPageNo`          — `get_page_no` (pagination resolution, lines 9-53);
* `extractFullArticle` — `extract_full_article` (content extraction, lines 55-128);
* `saveCompanyData`    — `save_company_data_with_full_articles` (orchestration,
  lines 130-247; the trailing CSV/statistics I/O is outside the modelled core).

Network fetches are modelled by an environment `Env` of response functions, and
HTML pages by records carrying exactly the observations the source code makes of
them (anchor texts of the pagination region, per-selector matches, listing-entry
blocks).  Text is modelled at the level of Unicode code points (`List Char`),
restricted to the ASCII behaviour of the Python string primitives involved.
-/

set_option autoImplicit false

/-! ### Python string primitives used by the scraper -/

/-- Whitespace class of Python's `str.strip`, `int()` and `re` module `\s`
(ASCII fragment): space, tab, newline, carriage return, vertical tab, form feed. -/
def pySpace (c : Char) : Bool :=
  c = ' ' || c = '\t' || c = '\n' || c = '\r' || c = '\x0b' || c = '\x0c'

/-- Auxiliary scanner for `re.sub(r'\s+', ' ', s)` (line 113): the flag records
whether the scanner is currently inside a whitespace run whose first character
has already been replaced by a single space. -/
def collapseWsAux : Bool → List Char → List Char
  | _, [] => []
  | inRun, c :: rest =>
    if pySpace c then
      if inRun then collapseWsAux true rest
      else ' ' :: collapseWsAux true rest
    else c :: collapseWsAux false rest

/-- Model of `re.sub(r'\s+', ' ', s)` (line 113): every maximal run of
whitespace characters is replaced by one space. -/
def collapseWs (l : List Char) : List Char := collapseWsAux false l

/-- Given a list, look at its maximal leading whitespace run and return the
tail just after the last newline inside that run, if the run contains one.
This is the greedy-with-backtrack behaviour of `\n\s*\n`: the `\s*` consumes up
to the last `\n` available in the run. -/
def wsTailAfterLastNl : List Char → Option (List Char)
  | [] => none
  | c :: rest =>
    if pySpace c then
      match wsTailAfterLastNl rest with
      | some r => some r
      | none => if c = '\n' then some rest else none
    else none

/-- Fuel-indexed scanner for `re.sub(r'\n\s*\n', '\n\n', s)` (line 114):
leftmost non-overlapping matches of a newline, a greedy run of whitespace, and a
final newline are replaced by exactly two newlines.  The fuel only serves to
make the recursion structural; `subNlWsNl` supplies `l.length`, which is always
sufficient since each step consumes at least one character. -/
def subNlWsNlGo : Nat → List Char → List Char
  | _, [] => []
  | 0, l => l
  | fuel + 1, c :: rest =>
    if c = '\n' then
      match wsTailAfterLastNl rest with
      | some r => '\n' :: '\n' :: subNlWsNlGo fuel r
      | none => c :: subNlWsNlGo fuel rest
    else c :: subNlWsNlGo fuel rest

/-- Model of `re.sub(r'\n\s*\n', '\n\n', s)` (line 114). -/
def subNlWsNl (l : List Char) : List Char := subNlWsNlGo l.length l

/-- Model of Python `str.strip()` (line 115): drop leading and trailing
whitespace. -/
def pyStripList (l : List Char) : List Char :=
  ((l.dropWhile pySpace).reverse.dropWhile pySpace).reverse

/-- String wrapper of `pyStripList`. -/
def pyStrip (s : String) : String := String.mk (pyStripList s.data)

/-- Digit tail of a Python integer literal: after the first digit, single
underscores are allowed, but only strictly between digits (`int("1_2")` parses,
`int("1__2")` and `int("1_")` raise). -/
def parseDigitsU : List Char → Nat → Option Nat
  | [], acc => some acc
  | c :: rest, acc =>
    if c = '_' then
      match rest with
      | [] => none
      | d :: rest2 =>
        if d.isDigit then parseDigitsU rest2 (acc * 10 + (d.toNat - 48)) else none
    else if c.isDigit then parseDigitsU rest (acc * 10 + (c.toNat - 48))
    else none

/-- Value of a nonempty underscore-grouped digit sequence, if well formed. -/
def digitsUVal : List Char → Option Nat
  | [] => none
  | d :: rest => if d.isDigit then parseDigitsU rest (d.toNat - 48) else none

/-- Model of Python `int(s)` on ASCII text (line 38 and line 41): surrounding
whitespace is stripped, an optional single sign is allowed, and the remainder
must be a nonempty digit sequence (with underscores only between digits).
`none` models `int` raising `ValueError`. -/
def pyIntParse (s : String) : Option Int :=
  match pyStripList s.data with
  | [] => none
  | c :: rest =>
    if c = '+' then (digitsUVal rest).map (fun n => (n : Int))
    else if c = '-' then (digitsUVal rest).map (fun n => -(n : Int))
    else (digitsUVal (c :: rest)).map (fun n => (n : Int))

/-- Model of Python `str.isdigit()` on ASCII text (line 41): nonempty and all
characters are digits. -/
def pyIsDigit (s : String) : Bool :=
  !s.data.isEmpty && s.data.all Char.isDigit

/-- Model of Python `str.startswith(pre)` (line 192). -/
def pyStartsWith (s pre : String) : Bool := pre.data.isPrefixOf s.data

/-- Model of `sep.join(items)` (lines 95, 108). -/
def joinSep (sep : String) : List String → String
  | [] => ""
  | [s] => s
  | s :: rest => s ++ sep ++ joinSep sep rest

/-! ### PaginationResolver: `get_page_no` (lines 9-53) -/

/-- What `get_page_no` observes of its one listing-page fetch: either the
request raised (`requests.RequestException`, line 48), or a page whose
pagination region `div.pages.MR10.MT15` is absent (`none`) or carries the given
anchor texts in document order (line 30).  A present-but-falsy region or a
region with no anchors (line 26) is the `some []` case. -/
inductive ListingFirstPage
  | fetchError
  | page (anchors : Option (List String))

/-- Numeric anchors of the pagination region:
`[int(p) for p in page_list if p.isdigit()]` (line 41).  When `pyIsDigit p`
holds, `pyIntParse p` always succeeds, so the `filterMap` keeps exactly the
purely numeric items with their values. -/
def numericPages (anchors : List String) : List Int :=
  anchors.filterMap (fun p => if pyIsDigit p then pyIntParse p else none)

/-- Model of `get_page_no(url, company, page_no, next, year)` (lines 9-53).
The `company`/`year`/`page_no` arguments only feed the URL and log messages;
the fetch outcome is passed directly.  Every error path returns `(1, next)`
through the `except` clauses (lines 48-53); in particular `int(page_list[-1])`
raising `ValueError` when the last anchor merely contains a digit (line 37-38)
lands in the generic handler.  The `next` argument is returned unchanged on
every path. -/
def getPageNo : ListingFirstPage → Nat → Int × Nat
  | .fetchError, next => (1, next)
  | .page none, next => (1, next)
  | .page (some anchors), next =>
    if h : anchors = [] then (1, next)
    else
      let last := anchors.getLast h
      if last.data.any Char.isDigit then
        match pyIntParse last with
        | some k => (k, next)
        | none => (1, next)
      else
        match (numericPages anchors).max? with
        | some m => (m, next)
        | none => (1, next)

/-! ### ContentExtractor: `extract_full_article` (lines 55-128) -/

/-- A content region matched by one CSS selector: the `get_text(strip=True)`
values of its `p`/`h1`..`h6` descendants in document order, taken after the
`script`/`style`/`nav`/`header`/`footer`/`aside` sub-elements have been
decomposed (lines 89-93).  An empty list models a region with no
heading/paragraph children. -/
structure Region where
  texts : List String
deriving DecidableEq

/-- What `extract_full_article` observes of a successfully fetched article
page: for each CSS selector of the cascade, what `soup.select_one` finds
(line 86) — `none` also covers a matched tag that is falsy, i.e. has no
contents, which the `if content_div:` test treats like no match; the
`get_text(strip=True)` values of the `<body>` fallback elements with the
unwanted tags decomposed (lines 100-107, `none` when the page has no body);
and whether parsing this page raises an exception (caught at line 126). -/
structure ArticlePage where
  select : String → Option Region
  bodyTexts : Option (List String)
  parseRaises : Bool

/-- Outcome of the article fetch at line 64: the request raised
(`requests.RequestException`, caught at line 123), or a page was obtained. -/
inductive ArticleFetch
  | transportError
  | ok (page : ArticlePage)

/-- The selector cascade of lines 70-81, in order. -/
def article_selectors : List String :=
  ["div.article_scheme", "div.article", "div.content_text", "div.article-content",
   "div.story-content", "div.article-body", "div.content", "article",
   "div[class*=\"article\"]", "div[class*=\"content\"]"]

/-- The `for selector in article_selectors` loop of lines 85-96: the first
selector whose region exists and has at least one heading/paragraph element
supplies the content — the nonempty texts joined by a blank line — and the loop
breaks (even when that join is empty because every text is empty).  If a region
exists but has no heading/paragraph elements at all, the loop continues. -/
def cascadeContent (page : ArticlePage) : List String → String
  | [] => ""
  | sel :: rest =>
    match page.select sel with
    | none => cascadeContent page rest
    | some r =>
      if r.texts.isEmpty then cascadeContent page rest
      else joinSep "\n\n" (r.texts.filter (fun t => t ≠ ""))

/-- The body fallback of lines 99-108: texts of all paragraph, heading and
`div` elements that are nonempty and longer than 50 characters, joined by a
blank line; empty when the page has no `<body>`. -/
def bodyFallback (page : ArticlePage) : String :=
  match page.bodyTexts with
  | none => ""
  | some ts => joinSep "\n\n" (ts.filter (fun t => t ≠ "" && 50 < t.length))

/-- Raw `article_content` after the cascade and the `if not article_content:`
fallback (lines 83-108). -/
def rawContent (page : ArticlePage) : String :=
  let c := cascadeContent page article_selectors
  if c = "" then bodyFallback page else c

/-- The cleanup of lines 113-115, in source order: collapse all whitespace runs
to single spaces, then apply the (by then vacuous) blank-line rule, then strip. -/
def normalizeContent (s : String) : String :=
  String.mk (pyStripList (subNlWsNl (collapseWs s.data)))

/-- The length cap of lines 118-119: text beyond 15000 characters is cut and
the literal marker is appended. -/
def truncateContent (s : String) : String :=
  if 15000 < s.length then String.mk (s.data.take 15000) ++ "... [Content truncated]"
  else s

/-- Lines 111-121: nonempty raw content is normalized and truncated; empty
content is returned as the empty string. -/
def extractContent (page : ArticlePage) : String :=
  let c := rawContent page
  if c = "" then c else truncateContent (normalizeContent c)

/-- Model of `extract_full_article(article_url)` (lines 55-128).  A transport
failure returns the fetch sentinel (line 125); an exception while parsing a
fetched page returns the parse sentinel (line 128); otherwise the extraction
pipeline runs.  Both sentinels are returned, never raised. -/
def extractFullArticle : ArticleFetch → String
  | .transportError => "Error: Could not fetch article content"
  | .ok page =>
    if page.parseRaises then "Error: Could not parse article content"
    else extractContent page

/-! ### CrawlOrchestrator: `save_company_data_with_full_articles` (lines 130-247) -/

/-- The headline anchor `<a class="arial11_summ">` of a listing-entry block
(line 184): its `title` attribute if present, its visible text
(`get_text(strip=True)`), and its `href` attribute if present. -/
structure LinkElement where
  titleAttr : Option String
  text : String
  href : Option String
deriving DecidableEq

/-- One `div.FL.PR20` listing-entry block (line 175): the first headline anchor
if any (line 184), and the stripped text of the sibling `<span class="g_date">`
if present (line 204). -/
structure EntryBlock where
  linkElement : Option LinkElement
  dateSpan : Option String
deriving DecidableEq

/-- A listing-entry block as iterated at line 177.  `faulty` models a block
whose processing raises an exception, which the handler at lines 227-229
catches and answers with `continue`. -/
inductive Block
  | entry (e : EntryBlock)
  | faulty
deriving DecidableEq

/-- Outcome of one listing-page fetch inside the page loop (lines 171-174):
`pageError` covers both `requests.RequestException` (line 238) and any other
exception while fetching or parsing the page (line 241) — both answer with
`continue`; `ok` carries the `div.FL.PR20` blocks in document order. -/
inductive ListingResult
  | pageError
  | ok (blocks : List Block)

/-- One row of `all_data` (lines 213-221). -/
structure Record where
  company : String
  year : Int
  title : String
  link : String
  date : String
  summary : String
  full_article : String
deriving DecidableEq

/-- Mutable state threaded through the orchestration loops: `records` is
`all_data` (line 142), `count` is the per-company-per-year `articles_processed`
counter (line 164), and `visited` is a ghost trace of the (window, page)
listing fetches attempted at line 171, recording the iteration order. -/
structure RunState where
  records : List Record
  count : Nat
  visited : List (Nat × Nat)
deriving DecidableEq

/-- The injected fetch capability: the first-page fetch performed inside
`get_page_no` (line 161, keyed by company and year), the listing-page fetches
of the loops (line 171, keyed by company, year, window `next` value and page
number), and the article fetch done by `extract_full_article` (line 64, keyed
by URL). -/
structure Env where
  firstPage : String → Int → ListingFirstPage
  fetchListing : String → Int → Nat → Nat → ListingResult
  fetchArticle : String → ArticleFetch

/-- The quota test `max_articles_per_company and articles_processed >=
max_articles_per_company` (lines 179, 232, 246): `None` and `0` are falsy, so
the comparison is only reached for a nonzero configured quota. -/
def quotaCheck : Option Nat → Nat → Bool
  | none, _ => false
  | some q, count => decide (q ≠ 0) && decide (q ≤ count)

/-- The title/summary expression
`link_element.get('title', '') or link_element.get_text(strip=True)`
(lines 188 and 211): an absent or empty `title` attribute falls back to the
anchor text. -/
def pyTitle (le : LinkElement) : String :=
  if le.titleAttr.getD "" = "" then le.text else le.titleAttr.getD ""

/-- Processing of one listing-entry block (lines 177-229, without the quota
test, which sits in `processBlocks`): a faulty block is skipped by the handler;
a block without headline anchor is skipped (line 186); a missing link or a link
not starting with `"http"` is skipped (line 192); otherwise the counter is
incremented, the article content is extracted and a record is appended. -/
def processBlock (env : Env) (c : String) (y : Int) (st : RunState) : Block → RunState
  | .faulty => st
  | .entry e =>
    match e.linkElement with
    | none => st
    | some le =>
      let link := le.href.getD "No link"
      if link = "No link" || !pyStartsWith link "http" then st
      else
        { st with
          count := st.count + 1,
          records := st.records ++
            [{ company := c, year := y, title := pyTitle le, link := link,
               date := e.dateSpan.getD "No date", summary := pyTitle le,
               full_article := extractFullArticle (env.fetchArticle link) }] }

/-- The `for article in articles` loop (lines 177-229): before each block the
quota test of line 179 may `break`; otherwise the block is processed and the
loop continues. -/
def processBlocks (env : Env) (c : String) (y : Int) (quota : Option Nat) :
    List Block → RunState → RunState
  | [], st => st
  | b :: rest, st =>
    if quotaCheck quota st.count then st
    else processBlocks env c y quota rest (processBlock env c y st b)

/-- The page loop body and its `break`/`continue` structure (lines 167-243):
each iteration attempts the listing fetch (recorded in the ghost trace); a
failed fetch skips the quota test of line 232 via `continue`, a successful one
processes the blocks and then may `break` out of the page loop. -/
def processPages (env : Env) (c : String) (y : Int) (quota : Option Nat) (i : Nat) :
    List Nat → RunState → RunState
  | [], st => st
  | j :: rest, st =>
    let st1 := { st with visited := st.visited ++ [(i, j)] }
    match env.fetchListing c y i j with
    | .pageError => processPages env c y quota i rest st1
    | .ok blocks =>
      let st2 := processBlocks env c y quota blocks st1
      if quotaCheck quota st2.count then st2
      else processPages env c y quota i rest st2

/-- `range(1, max_page_no + 1)` (line 167): pages `1 .. p` in order, empty when
`p < 1`. -/
def pagesList (p : Int) : List Nat :=
  if 1 ≤ p then (List.range p.toNat).map (· + 1) else []

/-- The window loop (lines 166-247): for each `next` value the full page range
is walked, then the quota test of line 246 may `break`. -/
def processWindows (env : Env) (c : String) (y : Int) (quota : Option Nat) (p : Int) :
    List Nat → RunState → RunState
  | [], st => st
  | i :: rest, st =>
    let st1 := processPages env c y quota i (pagesList p) st
    if quotaCheck quota st1.count then st1
    else processWindows env c y quota p rest st1

/-- One company/year body (lines 153-247): resolve pagination with `next = 0`
(line 156), advance the returned `next` by one (line 162), reset the per-segment
article counter (line 164), then walk `range(max_next)` windows. -/
def runCompanyYear (env : Env) (c : String) (y : Int) (quota : Option Nat)
    (st : RunState) : RunState :=
  processWindows env c y quota (getPageNo (env.firstPage c y) 0).1
    (List.range ((getPageNo (env.firstPage c y) 0).2 + 1)) { st with count := 0 }

/-- The `for year in years` loop (line 152). -/
def runYears (env : Env) (c : String) (quota : Option Nat) :
    List Int → RunState → RunState
  | [], st => st
  | y :: rest, st => runYears env c quota rest (runCompanyYear env c y quota st)

/-- The `for company in sc_id` loop (line 151). -/
def runCompanies (env : Env) (years : List Int) (quota : Option Nat) :
    List String → RunState → RunState
  | [], st => st
  | c :: rest, st => runCompanies env years quota rest (runYears env c quota years st)

/-- Model of `save_company_data_with_full_articles(sc_id, years,
max_articles_per_company, delay_between_articles)` (lines 130-247): the crawl
product starting from an empty state.  The delay parameter and the final CSV
writing have no bearing on the accumulated data and are not modelled. -/
def saveCompanyData (env : Env) (sc_id : List String) (years : List Int)
    (quota : Option Nat) : RunState :=
  runCompanies env years quota sc_id { records := [], count := 0, visited := [] }

/-! ### Concrete scenario material used by the claim theorems -/

/-- An article page containing only the primary selector's markup
(`div.article_scheme`) holding the given three paragraphs: every other selector
matches nothing and there is no usable body fallback. -/
def mkPrimaryPage (p1 p2 p3 : String) : ArticlePage :=
  { select := fun sel => if sel = "div.article_scheme" then some ⟨[p1, p2, p3]⟩ else none,
    bodyTexts := none,
    parseRaises := false }

/-- Tail of a URI scheme after its first character: letters, digits, `+`, `-`
and `.` until the terminating colon. -/
def schemeTail : List Char → Bool
  | [] => false
  | c :: rest =>
    if c = ':' then true
    else (c.isAlpha || c.isDigit || c = '+' || c = '-' || c = '.') && schemeTail rest

/-- Refinement predicate following the specification's wording, not the source:
a link "begins with a URL scheme" when it starts with a scheme component in the
sense of RFC 3986 (a letter followed by letters, digits, `+`, `-` or `.`,
terminated by a colon).  Used only to compare the specification's acceptance
condition with the source's `link.startswith('http')` test. -/
def beginsWithUrlScheme (s : String) : Bool :=
  match s.data with
  | [] => false
  | c :: rest => c.isAlpha && schemeTail rest

/-- Replace the listing-fetch response of one (company, year, window, page)
coordinate, leaving every other response and the other capabilities unchanged. -/
def setListing (env : Env) (c : String) (y : Int) (i j : Nat) (r : ListingResult) : Env :=
  { env with
    fetchListing := fun c2 y2 i2 j2 =>
      if c2 = c ∧ y2 = y ∧ i2 = i ∧ j2 = j then r else env.fetchListing c2 y2 i2 j2 }

/-- A listing-entry block with a valid absolute link, used by concrete runs. -/
def validBlock : Block :=
  .entry { linkElement := some { titleAttr := some "T", text := "T", href := some "http://e.x/a" },
           dateSpan := some "Jan 1" }

/-- Environment for concrete runs: pagination resolves to one page and no
discovered continuation, every listing page holds one valid entry, and every
article fetch fails in transport (so records carry the fetch sentinel). -/
def envOnePerPage : Env :=
  { firstPage := fun _ _ => .page none,
    fetchListing := fun _ _ _ _ => .ok [validBlock],
    fetchArticle := fun _ => .transportError }

/-- Environment whose listing pages are all empty. -/
def envEmptyListing : Env :=
  { firstPage := fun _ _ => .page none,
    fetchListing := fun _ _ _ _ => .ok [],
    fetchArticle := fun _ => .transportError }

/-- The empty starting state, for concrete statements. -/
def st0 : RunState := { records := [], count := 0, visited := [] }

/-! ### Supporting lemmas about the Python string primitives -/

theorem pySpace_eq_false_of_isDigit {c : Char} (h : c.isDigit = true) :
    pySpace c = false := by
  cases hc : pySpace c with
  | false => rfl
  | true =>
    exfalso
    simp only [pySpace, Bool.or_eq_true, decide_eq_true_eq] at hc
    rcases hc with ((((h1 | h1) | h1) | h1) | h1) | h1 <;> subst h1 <;>
      exact absurd h (by decide)

theorem dropWhile_eq_self_of_forall {l : List Char} (h : ∀ c ∈ l, pySpace c = false) :
    l.dropWhile pySpace = l := by
  cases l with
  | nil => rfl
  | cons c rest =>
    rw [List.dropWhile_cons, if_neg]
    simp [h c (List.mem_cons_self c rest)]

theorem pyStripList_eq_self_of_forall {l : List Char} (h : ∀ c ∈ l, pySpace c = false) :
    pyStripList l = l := by
  unfold pyStripList
  rw [dropWhile_eq_self_of_forall h,
    dropWhile_eq_self_of_forall (fun c hc => h c (List.mem_reverse.mp hc)),
    List.reverse_reverse]

theorem parseDigitsU_isSome_of_all_digits :
    ∀ (l : List Char) (acc : Nat), (∀ c ∈ l, c.isDigit = true) →
      ∃ v, parseDigitsU l acc = some v := by
  intro l
  induction l with
  | nil => exact fun acc _ => ⟨acc, rfl⟩
  | cons c rest ih =>
    intro acc hall
    have hc : c.isDigit = true := hall c (List.mem_cons_self c rest)
    have hne : ¬(c = '_') := by intro h; subst h; exact absurd hc (by decide)
    rw [parseDigitsU.eq_def]
    simp only []
    rw [if_neg hne, if_pos hc]
    exact ih _ (fun d hd => hall d (List.mem_cons_of_mem c hd))

theorem pyIntParse_isSome_of_pyIsDigit {s : String} (h : pyIsDigit s = true) :
    ∃ v, pyIntParse s = some v := by
  have hall : ∀ c ∈ s.data, c.isDigit = true := by
    simp only [pyIsDigit, Bool.and_eq_true, List.all_eq_true] at h
    exact h.2
  have hstrip : pyStripList s.data = s.data :=
    pyStripList_eq_self_of_forall
      (fun c hc => pySpace_eq_false_of_isDigit (hall c hc))
  unfold pyIntParse
  rw [hstrip]
  cases hd : s.data with
  | nil =>
    exfalso
    unfold pyIsDigit at h
    rw [hd] at h
    exact absurd h (by decide)
  | cons c rest =>
    have hc : c.isDigit = true := hall c (hd ▸ List.mem_cons_self c rest)
    have hplus : ¬(c = '+') := by intro h2; subst h2; exact absurd hc (by decide)
    have hminus : ¬(c = '-') := by intro h2; subst h2; exact absurd hc (by decide)
    have hrest : ∀ d ∈ rest, d.isDigit = true :=
      fun d hdm => hall d (hd ▸ List.mem_cons_of_mem c hdm)
    obtain ⟨v, hv⟩ := parseDigitsU_isSome_of_all_digits rest (c.toNat - 48) hrest
    exact ⟨(v : Int), by simp [if_neg hplus, if_neg hminus, digitsUVal, if_pos hc, hv]⟩

theorem anyDigit_of_pyIsDigit {s : String} (h : pyIsDigit s = true) :
    s.data.any Char.isDigit = true := by
  simp only [pyIsDigit, Bool.and_eq_true, List.all_eq_true] at h
  obtain ⟨h1, h2⟩ := h
  cases hd : s.data with
  | nil =>
    exfalso
    rw [hd] at h1
    exact absurd h1 (by decide)
  | cons c rest =>
    simp only [List.any_cons, Bool.or_eq_true]
    exact Or.inl (h2 c (hd ▸ List.mem_cons_self c rest))

/-! ### Claim C5 — pagination resolution is total and defaults to 1 -/

/-- C5 (confirmed).  PaginationResolver is total — `getPageNo` is a total Lean
function, so every input yields a result and nothing is raised — and each
degenerate input returns the safe default `pageCount = 1`: a transport error, a
listing page without a pagination region, a pagination region without anchors,
and a parse error (the last anchor contains a digit but `int()` fails on it,
landing in the generic exception handler). -/
theorem pagination_resolution_total (next : Nat) :
    getPageNo .fetchError next = (1, next)
    ∧ getPageNo (.page none) next = (1, next)
    ∧ getPageNo (.page (some [])) next = (1, next)
    ∧ ∀ (anchors : List String) (h : anchors ≠ []),
        (anchors.getLast h).data.any Char.isDigit = true →
        pyIntParse (anchors.getLast h) = none →
        getPageNo (.page (some anchors)) next = (1, next) := by
  refine ⟨rfl, rfl, by simp [getPageNo], ?_⟩
  intro anchors h hdig hparse
  simp only [getPageNo, dif_neg h, hdig, if_true, hparse]

/-- Witness for C5: a concrete parse-error input (`int("2x")` raises) resolves
to the default page count 1. -/
theorem pagination_resolution_total_witness :
    getPageNo (.page (some ["2x"])) 5 = (1, 5) :=
  (pagination_resolution_total 5).2.2.2 ["2x"] (by decide) (by decide) (by decide)

/-! ### Claim C6 — how the last pagination anchor is interpreted -/

/-- Counterexample to C6 as stated.  For anchor texts `["1", "2", "3x"]` the
last item is not purely numeric, so the claim requires the maximum of the
purely numeric items, 2.  But the source tests `any(map(str.isdigit, ...))` —
"contains a digit" — on the last item, so it calls `int("3x")`, which raises,
and the exception handler returns the default 1 instead. -/
theorem last_anchor_counterexample :
    (getPageNo (.page (some ["1", "2", "3x"])) 0).1 = 1
    ∧ ((numericPages ["1", "2", "3x"]).max?).getD 1 = 2 := by decide

/-- C6 (amended).  For a nonempty anchor list: if the last item is purely
numeric, its value is returned (through `int`, which also accepts surrounding
whitespace and a sign); if the last item contains no digit at all, the maximum
of the purely numeric items is returned, or 1 if there are none; but if the
last item contains a digit without being parseable by `int`, the resolver falls
back to 1 through the exception handler — not to the maximum of the numeric
items as the claim stated. -/
theorem last_anchor_pagination (anchors : List String) (next : Nat) (h : anchors ≠ []) :
    (pyIsDigit (anchors.getLast h) = true →
      getPageNo (.page (some anchors)) next = ((pyIntParse (anchors.getLast h)).getD 1, next))
    ∧ ((anchors.getLast h).data.any Char.isDigit = false →
      getPageNo (.page (some anchors)) next = (((numericPages anchors).max?).getD 1, next))
    ∧ ((anchors.getLast h).data.any Char.isDigit = true →
      pyIntParse (anchors.getLast h) = none →
      getPageNo (.page (some anchors)) next = (1, next)) := by
  refine ⟨?_, ?_, ?_⟩
  · intro hdig
    obtain ⟨v, hv⟩ := pyIntParse_isSome_of_pyIsDigit hdig
    simp only [getPageNo, dif_neg h, anyDigit_of_pyIsDigit hdig, if_true, hv, Option.getD_some]
  · intro hnod
    simp only [getPageNo, dif_neg h, hnod, Bool.false_eq_true, if_false]
    cases hm : (numericPages anchors).max? with
    | none => simp [hm]
    | some m => simp [hm]
  · intro hdig hparse
    simp only [getPageNo, dif_neg h, hdig, if_true, hparse]

/-- Witness for C6 (amended), at the two inputs named by the specification:
`["1","2","10"]` resolves to 10 and `["1","2","Next"]` to 2. -/
theorem last_anchor_pagination_witness :
    getPageNo (.page (some ["1", "2", "10"])) 0 = (10, 0)
    ∧ getPageNo (.page (some ["1", "2", "Next"])) 0 = (2, 0) := by
  constructor
  · have h1 := (last_anchor_pagination ["1", "2", "10"] 0 (by decide)).1 (by decide)
    rw [h1]; decide
  · have h2 := (last_anchor_pagination ["1", "2", "Next"] 0 (by decide)).2.1 (by decide)
    rw [h2]; decide

/-! ### Claim C4 — the 15000-character truncation cap -/

/-- C4 (confirmed).  The normalized text handed to the truncation step is cut
to exactly its first 15000 characters followed by the literal marker whenever
it exceeds 15000 characters, and is returned unchanged otherwise; and the
extractor's successful path is exactly the truncation of the normalized raw
content, so this bound applies to what `extract_full_article` returns. -/
theorem truncation_cap (s : String) :
    (15000 < s.length →
      truncateContent s = String.mk (s.data.take 15000) ++ "... [Content truncated]")
    ∧ (s.length ≤ 15000 → truncateContent s = s)
    ∧ ∀ page : ArticlePage, page.parseRaises = false → rawContent page ≠ "" →
        extractFullArticle (.ok page) = truncateContent (normalizeContent (rawContent page)) := by
  refine ⟨?_, ?_, ?_⟩
  · intro h
    simp [truncateContent, h]
  · intro h
    simp [truncateContent, Nat.not_lt.mpr h]
  · intro page hpr hraw
    simp [extractFullArticle, hpr, extractContent, hraw]

/-- Witness for C4: a 15001-character text is cut at 15000 and marked, a short
text is unchanged, and the concrete three-paragraph page goes through the
normalize-truncate path. -/
theorem truncation_cap_witness :
    truncateContent (String.mk (List.replicate 15001 'a'))
      = String.mk ((String.mk (List.replicate 15001 'a')).data.take 15000)
        ++ "... [Content truncated]"
    ∧ truncateContent "ab" = "ab"
    ∧ extractFullArticle (.ok (mkPrimaryPage "A" "B" "C"))
        = truncateContent (normalizeContent (rawContent (mkPrimaryPage "A" "B" "C"))) := by
  refine ⟨?_, ?_, ?_⟩
  · refine (truncation_cap (String.mk (List.replicate 15001 'a'))).1 ?_
    have hlen : (String.mk (List.replicate 15001 'a')).length = 15001 := by
      show (List.replicate 15001 'a').length = 15001
      exact List.length_replicate 15001 'a'
    rw [hlen]
    omega
  · exact (truncation_cap "ab").2.1 (by decide)
  · exact (truncation_cap "").2.2 (mkPrimaryPage "A" "B" "C") rfl (by decide)

/-! ### Claim C7 — extraction failure sentinels and record production -/

/-- C7 (confirmed).  A transport failure yields exactly the fetch sentinel and
a parse-time error after a successful fetch yields exactly the parse sentinel —
both returned, not thrown (the model functions are total).  Moreover, for any
accepted listing entry the orchestrator still appends an Article record whose
`full_article` field is whatever `extract_full_article` returned for the link,
so a sentinel lands in the record rather than suppressing it. -/
theorem extraction_failure_sentinels :
    extractFullArticle .transportError = "Error: Could not fetch article content"
    ∧ (∀ page : ArticlePage, page.parseRaises = true →
        extractFullArticle (.ok page) = "Error: Could not parse article content")
    ∧ ∀ (env : Env) (c : String) (y : Int) (st : RunState) (e : EntryBlock)
        (le : LinkElement) (link : String),
        e.linkElement = some le → le.href = some link → pyStartsWith link "http" = true →
        processBlock env c y st (.entry e)
          = { st with
              count := st.count + 1,
              records := st.records ++
                [{ company := c, year := y, title := pyTitle le, link := link,
                   date := e.dateSpan.getD "No date", summary := pyTitle le,
                   full_article := extractFullArticle (env.fetchArticle link) }] } := by
  refine ⟨rfl, ?_, ?_⟩
  · intro page h
    simp [extractFullArticle, h]
  · intro env c y st e le link hle hhref hstart
    have hnl : ¬(link = "No link") := by
      intro h2
      subst h2
      exact absurd hstart (by decide)
    simp [processBlock, hle, hhref, hstart, hnl]

/-- Witness for C7: a concrete raising page returns the parse sentinel, and a
concrete accepted entry in an environment whose article fetches all fail still
appends a record carrying the fetch sentinel. -/
theorem extraction_failure_sentinels_witness :
    extractFullArticle
        (.ok { select := fun _ => none, bodyTexts := none, parseRaises := true })
      = "Error: Could not parse article content"
    ∧ processBlock envOnePerPage "X" 2025 st0
        (.entry { linkElement := some { titleAttr := some "T", text := "T",
                                        href := some "http://e.x/a" },
                  dateSpan := some "Jan 1" })
      = { st0 with
          count := st0.count + 1,
          records := st0.records ++
            [{ company := "X", year := 2025, title := "T", link := "http://e.x/a",
               date := "Jan 1", summary := "T",
               full_article := "Error: Could not fetch article content" }] } := by
  constructor
  · exact extraction_failure_sentinels.2.1 _ rfl
  · rw [extraction_failure_sentinels.2.2 envOnePerPage "X" 2025 st0
      { linkElement := some { titleAttr := some "T", text := "T", href := some "http://e.x/a" },
        dateSpan := some "Jan 1" }
      { titleAttr := some "T", text := "T", href := some "http://e.x/a" }
      "http://e.x/a" rfl rfl (by decide)]
    decide

/-! ### Supporting lemmas about whitespace collapsing -/

theorem collapseWsAux_append {l : List Char} (h : ∀ c ∈ l, pySpace c = false) :
    ∀ rest, collapseWsAux false (l ++ rest) = l ++ collapseWsAux false rest := by
  induction l with
  | nil => intro rest; rfl
  | cons c t ih =>
    intro rest
    have hc : pySpace c = false := h c (List.mem_cons_self c t)
    simp only [List.cons_append, collapseWsAux, hc, Bool.false_eq_true, if_false,
      List.append_eq]
    rw [ih (fun d hd => h d (List.mem_cons_of_mem c hd)) rest]

theorem collapseWsAux_eq_self {l : List Char} (h : ∀ c ∈ l, pySpace c = false) :
    collapseWsAux false l = l := by
  have h2 := collapseWsAux_append h []
  simpa [collapseWsAux] using h2

theorem collapseWsAux_true_eq_false {l : List Char}
    (h : ∀ c, l.head? = some c → pySpace c = false) :
    collapseWsAux true l = collapseWsAux false l := by
  cases l with
  | nil => rfl
  | cons c t => simp [collapseWsAux, h c rfl]

theorem head_not_ws_append {b : List Char} (rest : List Char) (hbne : b ≠ [])
    (hb : ∀ c ∈ b, pySpace c = false) :
    ∀ c, (b ++ rest).head? = some c → pySpace c = false := by
  cases b with
  | nil => exact absurd rfl hbne
  | cons x t =>
    intro c hc
    simp only [List.cons_append, List.head?_cons, Option.some.injEq] at hc
    subst hc
    exact hb x (List.mem_cons_self x t)

theorem collapseWs_para_sep {a : List Char} (b : List Char)
    (ha : ∀ c ∈ a, pySpace c = false)
    (hb1 : ∀ c, b.head? = some c → pySpace c = false) :
    collapseWsAux false (a ++ '\n' :: '\n' :: b) = a ++ ' ' :: collapseWsAux false b := by
  rw [collapseWsAux_append ha]
  have e1 : collapseWsAux false ('\n' :: '\n' :: b) = ' ' :: collapseWsAux true b := rfl
  rw [e1, collapseWsAux_true_eq_false hb1]

theorem subNlWsNlGo_no_nl {l : List Char} (h : ∀ c ∈ l, ¬(c = '\n')) :
    ∀ fuel, subNlWsNlGo fuel l = l := by
  induction l with
  | nil => intro fuel; cases fuel <;> rfl
  | cons c t ih =>
    intro fuel
    cases fuel with
    | zero => rfl
    | succ f =>
      rw [subNlWsNlGo.eq_def]
      simp only []
      rw [if_neg (h c (List.mem_cons_self c t))]
      rw [ih (fun d hd => h d (List.mem_cons_of_mem c hd)) f]

theorem subNlWsNl_no_nl {l : List Char} (h : ∀ c ∈ l, ¬(c = '\n')) :
    subNlWsNl l = l :=
  subNlWsNlGo_no_nl h l.length

theorem dropWhile_eq_self_of_head {l : List Char}
    (h : ∀ c, l.head? = some c → pySpace c = false) :
    l.dropWhile pySpace = l := by
  cases l with
  | nil => rfl
  | cons c t =>
    rw [List.dropWhile_cons, if_neg]
    simp [h c rfl]

theorem pyStripList_eq_self_of_ends {l : List Char}
    (hh : ∀ c, l.head? = some c → pySpace c = false)
    (hl : ∀ c, l.getLast? = some c → pySpace c = false) :
    pyStripList l = l := by
  unfold pyStripList
  rw [dropWhile_eq_self_of_head hh]
  have h2 : l.reverse.dropWhile pySpace = l.reverse :=
    dropWhile_eq_self_of_head (by
      intro c hc
      rw [List.head?_reverse] at hc
      exact hl c hc)
  rw [h2, List.reverse_reverse]

theorem string_data_ne_nil {s : String} (h : s ≠ "") : s.data ≠ [] := by
  intro hd
  exact h (String.ext (by rw [hd]))

theorem head_not_ws {b : List Char} (hbne : b ≠ []) (hb : ∀ c ∈ b, pySpace c = false) :
    ∀ c, b.head? = some c → pySpace c = false := by
  cases b with
  | nil => exact absurd rfl hbne
  | cons x t =>
    intro c hc
    simp only [List.head?_cons, Option.some.injEq] at hc
    subst hc
    exact hb x (List.mem_cons_self x t)

theorem ne_nl_of_not_ws {c : Char} (h : pySpace c = false) : ¬(c = '\n') := by
  intro h2
  subst h2
  exact absurd h (by decide)

/-! ### Claim C3 — the three-paragraph round trip through normalization -/

/-- Counterexample to C3 as stated.  A page holding only the primary selector's
region with the three paragraphs `"A"`, `"B"`, `"C"` does not extract to the
blank-line join `"A\n\nB\n\nC"`: because line 113 substitutes every whitespace
run — including the `\n\n` separators introduced at line 95 — with a single
space before the blank-line rule of line 114 runs, the result is `"A B C"`. -/
theorem primary_three_paragraphs_counterexample :
    extractFullArticle (.ok (mkPrimaryPage "A" "B" "C")) = "A B C"
    ∧ extractFullArticle (.ok (mkPrimaryPage "A" "B" "C")) ≠ "A\n\nB\n\nC" := by decide

/-- C3 (amended).  For a page containing only the primary selector's markup
with three nonempty paragraphs (whitespace-free, so that the claimed "collapse
runs of whitespace to single spaces" is not itself in play, and jointly short
enough not to be truncated), the extractor returns the three paragraph texts
joined by single spaces — not by blank lines: the `\s+` collapse of line 113
runs first and turns each blank-line separator into one space, making the
blank-line rule of line 114 vacuous. -/
theorem primary_three_paragraphs (p1 p2 p3 : String)
    (h1 : p1 ≠ "") (h2 : p2 ≠ "") (h3 : p3 ≠ "")
    (hw1 : ∀ c ∈ p1.data, pySpace c = false)
    (hw2 : ∀ c ∈ p2.data, pySpace c = false)
    (hw3 : ∀ c ∈ p3.data, pySpace c = false)
    (hlen : p1.length + p2.length + p3.length + 2 ≤ 15000) :
    extractFullArticle (.ok (mkPrimaryPage p1 p2 p3)) = p1 ++ " " ++ p2 ++ " " ++ p3 := by
  have hd1 := string_data_ne_nil h1
  have hd2 := string_data_ne_nil h2
  have hd3 := string_data_ne_nil h3
  have hf : [p1, p2, p3].filter (fun t => t ≠ "") = [p1, p2, p3] := by
    simp [List.filter, h1, h2, h3]
  have hcontent : cascadeContent (mkPrimaryPage p1 p2 p3) article_selectors
      = p1 ++ "\n\n" ++ (p2 ++ "\n\n" ++ p3) := by
    have hcas : cascadeContent (mkPrimaryPage p1 p2 p3) article_selectors
        = joinSep "\n\n" ([p1, p2, p3].filter (fun t => t ≠ "")) := rfl
    rw [hcas, hf]
    rfl
  have hJdata : (p1 ++ "\n\n" ++ (p2 ++ "\n\n" ++ p3)).data
      = p1.data ++ '\n' :: '\n' :: (p2.data ++ '\n' :: '\n' :: p3.data) := by
    simp [String.data_append, show ("\n\n" : String).data = ['\n', '\n'] from rfl,
      List.append_assoc]
  have hJne : p1 ++ "\n\n" ++ (p2 ++ "\n\n" ++ p3) ≠ "" := by
    intro h0
    have hdata := congrArg String.data h0
    rw [hJdata] at hdata
    simp at hdata
  have hrawJ : rawContent (mkPrimaryPage p1 p2 p3) = p1 ++ "\n\n" ++ (p2 ++ "\n\n" ++ p3) := by
    simp only [rawContent, hcontent]
    rw [if_neg hJne]
  have hec : extractContent (mkPrimaryPage p1 p2 p3)
      = truncateContent (normalizeContent (p1 ++ "\n\n" ++ (p2 ++ "\n\n" ++ p3))) := by
    simp only [extractContent, hrawJ]
    rw [if_neg hJne]
  have hcol : collapseWs (p1.data ++ '\n' :: '\n' :: (p2.data ++ '\n' :: '\n' :: p3.data))
      = p1.data ++ ' ' :: (p2.data ++ ' ' :: p3.data) := by
    unfold collapseWs
    rw [collapseWs_para_sep _ hw1 (head_not_ws_append _ hd2 hw2)]
    rw [collapseWs_para_sep _ hw2 (head_not_ws hd3 hw3)]
    rw [collapseWsAux_eq_self hw3]
  have hnl : ∀ c ∈ (p1.data ++ ' ' :: (p2.data ++ ' ' :: p3.data)), ¬(c = '\n') := by
    intro c hc
    simp only [List.mem_append, List.mem_cons] at hc
    rcases hc with hc | hc | hc | hc | hc
    · exact ne_nl_of_not_ws (hw1 c hc)
    · subst hc; decide
    · exact ne_nl_of_not_ws (hw2 c hc)
    · subst hc; decide
    · exact ne_nl_of_not_ws (hw3 c hc)
  have hhead : ∀ c, (p1.data ++ ' ' :: (p2.data ++ ' ' :: p3.data)).head? = some c →
      pySpace c = false :=
    head_not_ws_append _ hd1 hw1
  have hlast : ∀ c, (p1.data ++ ' ' :: (p2.data ++ ' ' :: p3.data)).getLast? = some c →
      pySpace c = false := by
    intro c hc
    rw [List.getLast?_append_cons] at hc
    rw [show (' ' :: (p2.data ++ ' ' :: p3.data)) = (' ' :: p2.data) ++ (' ' :: p3.data)
      from by simp] at hc
    rw [List.getLast?_append_cons] at hc
    rw [show (' ' :: p3.data) = [' '] ++ p3.data from rfl] at hc
    rw [List.getLast?_append_of_ne_nil [' '] hd3] at hc
    have hmem : c ∈ p3.data := by
      obtain ⟨hne, he⟩ := List.mem_getLast?_eq_getLast hc
      subst he
      exact List.getLast_mem hne
    exact hw3 c hmem
  have hnorm : normalizeContent (p1 ++ "\n\n" ++ (p2 ++ "\n\n" ++ p3))
      = String.mk (p1.data ++ ' ' :: (p2.data ++ ' ' :: p3.data)) := by
    unfold normalizeContent
    rw [hJdata, hcol, subNlWsNl_no_nl hnl, pyStripList_eq_self_of_ends hhead hlast]
  have hlenL : ¬(15000 < (String.mk (p1.data ++ ' ' :: (p2.data ++ ' ' :: p3.data))).length) := by
    apply Nat.not_lt.mpr
    show (p1.data ++ ' ' :: (p2.data ++ ' ' :: p3.data)).length ≤ 15000
    simp only [List.length_append, List.length_cons]
    have e1 : p1.length = p1.data.length := rfl
    have e2 : p2.length = p2.data.length := rfl
    have e3 : p3.length = p3.data.length := rfl
    rw [e1, e2, e3] at hlen
    omega
  have hex : extractFullArticle (.ok (mkPrimaryPage p1 p2 p3))
      = extractContent (mkPrimaryPage p1 p2 p3) := rfl
  rw [hex, hec, hnorm]
  rw [truncateContent, if_neg hlenL]
  apply String.ext
  simp [String.data_append, show (" " : String).data = [' '] from rfl, List.append_assoc]

/-- Witness for C3 (amended): the concrete page with paragraphs `"Alpha"`,
`"Beta"`, `"Gamma"` extracts to `"Alpha Beta Gamma"`. -/
theorem primary_three_paragraphs_witness :
    extractFullArticle (.ok (mkPrimaryPage "Alpha" "Beta" "Gamma"))
      = "Alpha" ++ " " ++ "Beta" ++ " " ++ "Gamma" :=
  primary_three_paragraphs "Alpha" "Beta" "Gamma" (by decide) (by decide) (by decide)
    (by decide) (by decide) (by decide) (by decide)

/-! ### Claim C8 — which listing entries the scanner skips -/

/-- Counterexample to C8 as stated.  The entry link `"httpgarbage/x"` does not
begin with a URL scheme (there is no colon-terminated scheme component), yet
the source's acceptance test is the literal prefix check
`link.startswith('http')`, which accepts it: the block produces an Article
record instead of being rejected. -/
theorem scanner_scheme_counterexample :
    beginsWithUrlScheme "httpgarbage/x" = false
    ∧ (processBlock envOnePerPage "X" 2025 st0
        (.entry { linkElement := some { titleAttr := none, text := "T",
                                        href := some "httpgarbage/x" },
                  dateSpan := none })).records.length = 1 := by decide

/-- C8 (amended).  A block without headline anchor yields nothing, and an
entry whose link is missing or does not start with the literal prefix `"http"`
(the source's absoluteness test, which the specification describes as beginning
with a URL scheme) is dropped; in every skipped case the state is unchanged, so
no Article is produced and the quota counter is not incremented. -/
theorem scanner_skip_rules (env : Env) (c : String) (y : Int) (st : RunState)
    (e : EntryBlock) :
    (e.linkElement = none → processBlock env c y st (.entry e) = st)
    ∧ ∀ le, e.linkElement = some le →
        ((le.href = none → processBlock env c y st (.entry e) = st)
         ∧ ∀ link, le.href = some link → pyStartsWith link "http" = false →
             processBlock env c y st (.entry e) = st) := by
  constructor
  · intro h
    simp [processBlock, h]
  · intro le hle
    constructor
    · intro h
      simp [processBlock, hle, h]
    · intro link hl hstart
      simp [processBlock, hle, hl, hstart]

/-- Witness for C8 (amended): a block without anchor and a block with the
relative link `"/relative/path"` both leave the state untouched. -/
theorem scanner_skip_rules_witness :
    processBlock envOnePerPage "X" 2025 st0
        (.entry { linkElement := none, dateSpan := none }) = st0
    ∧ processBlock envOnePerPage "X" 2025 st0
        (.entry { linkElement := some { titleAttr := none, text := "T",
                                        href := some "/relative/path" },
                  dateSpan := none }) = st0 :=
  ⟨(scanner_skip_rules envOnePerPage "X" 2025 st0
      { linkElement := none, dateSpan := none }).1 rfl,
   ((scanner_skip_rules envOnePerPage "X" 2025 st0
      { linkElement := some { titleAttr := none, text := "T", href := some "/relative/path" },
        dateSpan := none }).2
      { titleAttr := none, text := "T", href := some "/relative/path" } rfl).2
      "/relative/path" rfl (by decide)⟩

/-! ### Claim C10 — a configured quota of 0 is falsy, hence unlimited -/

theorem processBlocks_quota_congr (env : Env) (c : String) (y : Int)
    {m1 m2 : Option Nat} (h : ∀ n, quotaCheck m1 n = quotaCheck m2 n) :
    ∀ (bs : List Block) (st : RunState),
      processBlocks env c y m1 bs st = processBlocks env c y m2 bs st := by
  intro bs
  induction bs with
  | nil => intro st; rfl
  | cons b rest ih =>
    intro st
    simp only [processBlocks, h st.count]
    cases hq : quotaCheck m2 st.count with
    | true => simp
    | false => simp [ih]

theorem processPages_quota_congr (env : Env) (c : String) (y : Int)
    {m1 m2 : Option Nat} (h : ∀ n, quotaCheck m1 n = quotaCheck m2 n) (i : Nat) :
    ∀ (js : List Nat) (st : RunState),
      processPages env c y m1 i js st = processPages env c y m2 i js st := by
  intro js
  induction js with
  | nil => intro st; rfl
  | cons j rest ih =>
    intro st
    simp only [processPages]
    cases env.fetchListing c y i j with
    | pageError => exact ih _
    | ok blocks =>
      simp only [processBlocks_quota_congr env c y h blocks, h]
      cases quotaCheck m2 (processBlocks env c y m2 blocks
        { st with visited := st.visited ++ [(i, j)] }).count with
      | true => simp
      | false => simp [ih]

theorem processWindows_quota_congr (env : Env) (c : String) (y : Int)
    {m1 m2 : Option Nat} (h : ∀ n, quotaCheck m1 n = quotaCheck m2 n) (p : Int) :
    ∀ (ws : List Nat) (st : RunState),
      processWindows env c y m1 p ws st = processWindows env c y m2 p ws st := by
  intro ws
  induction ws with
  | nil => intro st; rfl
  | cons i rest ih =>
    intro st
    simp only [processWindows, processPages_quota_congr env c y h i, h]
    cases quotaCheck m2 (processPages env c y m2 i (pagesList p) st).count with
    | true => simp
    | false => simp [ih]

theorem runCompanyYear_quota_congr (env : Env) (c : String) (y : Int)
    {m1 m2 : Option Nat} (h : ∀ n, quotaCheck m1 n = quotaCheck m2 n) (st : RunState) :
    runCompanyYear env c y m1 st = runCompanyYear env c y m2 st := by
  unfold runCompanyYear
  exact processWindows_quota_congr env c y h _ _ _

theorem runYears_quota_congr (env : Env) (c : String)
    {m1 m2 : Option Nat} (h : ∀ n, quotaCheck m1 n = quotaCheck m2 n) :
    ∀ (years : List Int) (st : RunState),
      runYears env c m1 years st = runYears env c m2 years st := by
  intro years
  induction years with
  | nil => intro st; rfl
  | cons y rest ih =>
    intro st
    simp only [runYears, runCompanyYear_quota_congr env c y h, ih]

theorem runCompanies_quota_congr (env : Env) (years : List Int)
    {m1 m2 : Option Nat} (h : ∀ n, quotaCheck m1 n = quotaCheck m2 n) :
    ∀ (sc_id : List String) (st : RunState),
      runCompanies env years m1 sc_id st = runCompanies env years m2 sc_id st := by
  intro sc_id
  induction sc_id with
  | nil => intro st; rfl
  | cons c rest ih =>
    intro st
    simp only [runCompanies, runYears_quota_congr env c h years, ih]

/-- C10 (confirmed).  A configured quota of 0 is falsy in the Python test
`max_articles_per_company and articles_processed >= max_articles_per_company`
(lines 179, 232, 246), so the quota comparison is skipped entirely and the
whole run is byte-for-byte the run with no quota configured — every discovered
article is processed as in the unlimited case, not zero articles. -/
theorem quota_zero_is_unlimited (env : Env) (sc_id : List String) (years : List Int) :
    saveCompanyData env sc_id years (some 0) = saveCompanyData env sc_id years none := by
  unfold saveCompanyData
  exact runCompanies_quota_congr env years (fun n => by simp [quotaCheck]) sc_id _

/-! ### Claim C9 — failure isolation at the page and article granularity -/

theorem setListing_fetchListing (env : Env) (c : String) (y : Int) (i j : Nat)
    (r : ListingResult) (c2 : String) (y2 : Int) (i2 j2 : Nat) :
    (setListing env c y i j r).fetchListing c2 y2 i2 j2
      = if c2 = c ∧ y2 = y ∧ i2 = i ∧ j2 = j then r
        else env.fetchListing c2 y2 i2 j2 := rfl

theorem processBlock_fetchArticle_congr (envA envB : Env)
    (h : envA.fetchArticle = envB.fetchArticle) (c : String) (y : Int)
    (st : RunState) (b : Block) :
    processBlock envA c y st b = processBlock envB c y st b := by
  cases b with
  | faulty => rfl
  | entry e => simp only [processBlock, h]

theorem processBlocks_fetchArticle_congr (envA envB : Env)
    (h : envA.fetchArticle = envB.fetchArticle) (c : String) (y : Int)
    (quota : Option Nat) :
    ∀ (bs : List Block) (st : RunState),
      processBlocks envA c y quota bs st = processBlocks envB c y quota bs st := by
  intro bs
  induction bs with
  | nil => intro st; rfl
  | cons b rest ih =>
    intro st
    simp only [processBlocks, processBlock_fetchArticle_congr envA envB h c y st b]
    cases quotaCheck quota st.count with
    | true => simp
    | false => simp [ih]

theorem setListing_pages_isolated (env : Env) (c : String) (y : Int) (i j : Nat) (i2 : Nat) :
    ∀ (js : List Nat) (st : RunState),
      processPages (setListing env c y i j .pageError) c y none i2 js st
        = processPages (setListing env c y i j (.ok [])) c y none i2 js st := by
  intro js
  induction js with
  | nil => intro st; rfl
  | cons j2 rest ih =>
    intro st
    simp only [processPages, setListing_fetchListing]
    by_cases hcase : i2 = i ∧ j2 = j
    · rw [if_pos ⟨trivial, trivial, hcase⟩, if_pos ⟨trivial, trivial, hcase⟩]
      exact ih _
    · rw [if_neg (fun hh => hcase hh.2.2), if_neg (fun hh => hcase hh.2.2)]
      cases hr : env.fetchListing c y i2 j2 with
      | pageError => exact ih _
      | ok blocks =>
        simp only []
        rw [processBlocks_fetchArticle_congr (setListing env c y i j .pageError)
          (setListing env c y i j (.ok [])) rfl c y none blocks]
        simp only [quotaCheck, Bool.false_eq_true, if_false]
        exact ih _

theorem setListing_windows_isolated (env : Env) (c : String) (y : Int) (i j : Nat) (p : Int) :
    ∀ (ws : List Nat) (st : RunState),
      processWindows (setListing env c y i j .pageError) c y none p ws st
        = processWindows (setListing env c y i j (.ok [])) c y none p ws st := by
  intro ws
  induction ws with
  | nil => intro st; rfl
  | cons i2 rest ih =>
    intro st
    simp only [processWindows, setListing_pages_isolated env c y i j i2, quotaCheck,
      Bool.false_eq_true, if_false]
    exact ih _

/-- C9 (confirmed).  Failure isolation: (a) a run in which one listing-page
fetch raises is identical, records, counter and fetch trace included, to the
run in which that page merely comes back empty — every other page of the
target is still attempted and its articles collected; (b) a block whose
processing raises an exception is simply skipped: deleting it from the block
list leaves the article loop result unchanged, so neither the page nor the
run is aborted.  (Stated with no quota configured, where no `break` interferes
with iteration.) -/
theorem failure_isolation (env : Env) (c : String) (y : Int) (i j : Nat) (st : RunState) :
    runCompanyYear (setListing env c y i j .pageError) c y none st
      = runCompanyYear (setListing env c y i j (.ok [])) c y none st
    ∧ ∀ (bs1 bs2 : List Block) (st2 : RunState),
        processBlocks env c y none (bs1 ++ Block.faulty :: bs2) st2
          = processBlocks env c y none (bs1 ++ bs2) st2 := by
  constructor
  · unfold runCompanyYear
    exact setListing_windows_isolated env c y i j _ _ _
  · intro bs1
    induction bs1 with
    | nil =>
      intro bs2 st2
      simp only [List.nil_append, processBlocks, quotaCheck, Bool.false_eq_true, if_false]
      rfl
    | cons b rest ih =>
      intro bs2 st2
      simp only [List.cons_append, processBlocks, quotaCheck, Bool.false_eq_true, if_false]
      exact ih _ _

/-! ### Claim C2 — which windows and pages are iterated -/

theorem processBlock_visited (env : Env) (c : String) (y : Int) (st : RunState) (b : Block) :
    (processBlock env c y st b).visited = st.visited := by
  cases b with
  | faulty => rfl
  | entry e =>
    cases hle : e.linkElement with
    | none => simp [processBlock, hle]
    | some le =>
      simp only [processBlock, hle]
      cases hcond : (le.href.getD "No link" = "No link"
          || !pyStartsWith (le.href.getD "No link") "http") with
      | true => simp [hcond]
      | false => simp [hcond]

theorem processBlocks_visited (env : Env) (c : String) (y : Int) (quota : Option Nat) :
    ∀ (bs : List Block) (st : RunState),
      (processBlocks env c y quota bs st).visited = st.visited := by
  intro bs
  induction bs with
  | nil => intro st; rfl
  | cons b rest ih =>
    intro st
    simp only [processBlocks]
    cases quotaCheck quota st.count with
    | true => simp
    | false => simp [ih, processBlock_visited]

theorem processPages_visited (env : Env) (c : String) (y : Int) (i : Nat) :
    ∀ (js : List Nat) (st : RunState),
      (processPages env c y none i js st).visited
        = st.visited ++ js.map (fun j => (i, j)) := by
  intro js
  induction js with
  | nil => intro st; simp [processPages]
  | cons j rest ih =>
    intro st
    simp only [processPages]
    cases env.fetchListing c y i j with
    | pageError =>
      rw [ih]
      simp [List.append_assoc]
    | ok blocks =>
      simp only [quotaCheck, Bool.false_eq_true, if_false]
      rw [ih, processBlocks_visited]
      simp [List.append_assoc]

theorem processWindows_visited (env : Env) (c : String) (y : Int) (p : Int) :
    ∀ (ws : List Nat) (st : RunState),
      (processWindows env c y none p ws st).visited
        = st.visited ++ ws.flatMap (fun i => (pagesList p).map (fun j => (i, j))) := by
  intro ws
  induction ws with
  | nil => intro st; simp [processWindows]
  | cons i rest ih =>
    intro st
    simp only [processWindows, quotaCheck, Bool.false_eq_true, if_false]
    rw [ih, processPages_visited]
    simp [List.append_assoc]

/-- Counterexample to C2 as stated.  With the concrete environment, the
discovered next-value is 0, so the claim's `continuationWindows` is 1 and the
claim requires windows 0 through 1 inclusive — in particular a fetch of
(window 1, page 1).  The orchestrator's loop is `for i in range(max_next)`
(line 166) after `max_next = max_next + 1` (line 162), which walks only window
0: the fetch trace is exactly `[(0, 1)]` and (1, 1) is never attempted. -/
theorem window_iteration_counterexample :
    (runCompanyYear envEmptyListing "X" 2025 none st0).visited = [(0, 1)]
    ∧ (1, 1) ∉ (runCompanyYear envEmptyListing "X" 2025 none st0).visited := by decide

/-- C2 (amended).  With no quota configured (so no `break` interferes), the
listing fetches attempted for a CrawlTarget are exactly windows
`0 .. continuationWindows - 1` inclusive — that is, `range(discovered + 1)`,
one past the discovered next-value but excluding the upper bound, not
`0 .. continuationWindows` inclusive as the claim stated — and for each window
pages `1 .. pageCount` inclusive, in window-major page-minor order. -/
theorem window_page_iteration (env : Env) (c : String) (y : Int) (st : RunState) :
    (runCompanyYear env c y none st).visited
      = st.visited
        ++ (List.range ((getPageNo (env.firstPage c y) 0).2 + 1)).flatMap
            (fun i => (pagesList (getPageNo (env.firstPage c y) 0).1).map (fun j => (i, j))) := by
  unfold runCompanyYear
  rw [processWindows_visited]

/-! ### Claim C1 — quota scope and enforcement -/

theorem processBlock_step (env : Env) (c : String) (y : Int) (st : RunState) (b : Block) :
    (processBlock env c y st b).count ≤ st.count + 1
    ∧ (processBlock env c y st b).records.length + st.count
        = st.records.length + (processBlock env c y st b).count := by
  cases b with
  | faulty => exact ⟨Nat.le_succ _, rfl⟩
  | entry e =>
    cases hle : e.linkElement with
    | none =>
      simp only [processBlock, hle]
      exact ⟨Nat.le_succ _, by trivial⟩
    | some le =>
      simp only [processBlock, hle]
      cases hcond : (le.href.getD "No link" = "No link"
          || !pyStartsWith (le.href.getD "No link") "http") with
      | true =>
        simp only [hcond, if_true]
        exact ⟨Nat.le_succ _, by trivial⟩
      | false =>
        simp only [hcond, Bool.false_eq_true, if_false, List.length_append,
          List.length_cons, List.length_nil]
        refine ⟨Nat.le_refl _, ?_⟩
        omega

theorem processBlocks_quota_invariant (env : Env) (c : String) (y : Int) {q : Nat}
    (hq : q ≠ 0) :
    ∀ (bs : List Block) (st : RunState), st.count ≤ q →
      (processBlocks env c y (some q) bs st).count ≤ q
      ∧ (processBlocks env c y (some q) bs st).records.length + st.count
          = st.records.length + (processBlocks env c y (some q) bs st).count := by
  intro bs
  induction bs with
  | nil => intro st hst; exact ⟨hst, rfl⟩
  | cons b rest ih =>
    intro st hst
    simp only [processBlocks]
    by_cases hc : quotaCheck (some q) st.count = true
    case pos =>
      rw [if_pos hc]
      exact ⟨hst, rfl⟩
    case neg =>
      rw [if_neg hc]
      have hc2 : quotaCheck (some q) st.count = false := by
        cases hcv : quotaCheck (some q) st.count with
        | true => exact absurd hcv hc
        | false => rfl
      have hlt : st.count < q := by
        by_contra hge
        push_neg at hge
        have htrue : quotaCheck (some q) st.count = true := by
          simp [quotaCheck, hq, hge]
        exact hc htrue
      obtain ⟨hb1, hb2⟩ := processBlock_step env c y st b
      have hst1 : (processBlock env c y st b).count ≤ q := by omega
      obtain ⟨ih1, ih2⟩ := ih (processBlock env c y st b) hst1
      exact ⟨ih1, by omega⟩

theorem processPages_quota_invariant (env : Env) (c : String) (y : Int) {q : Nat}
    (hq : q ≠ 0) (i : Nat) :
    ∀ (js : List Nat) (st : RunState), st.count ≤ q →
      (processPages env c y (some q) i js st).count ≤ q
      ∧ (processPages env c y (some q) i js st).records.length + st.count
          = st.records.length + (processPages env c y (some q) i js st).count := by
  intro js
  induction js with
  | nil => intro st hst; exact ⟨hst, rfl⟩
  | cons j rest ih =>
    intro st hst
    simp only [processPages]
    have e1 : ({ st with visited := st.visited ++ [(i, j)] } : RunState).count = st.count := rfl
    have e2 : ({ st with visited := st.visited ++ [(i, j)] } : RunState).records
        = st.records := rfl
    cases env.fetchListing c y i j with
    | pageError =>
      simp only []
      obtain ⟨ih1, ih2⟩ := ih { st with visited := st.visited ++ [(i, j)] }
        (by rw [e1]; exact hst)
      refine ⟨ih1, ?_⟩
      rw [e1, e2] at ih2
      omega
    | ok blocks =>
      simp only []
      obtain ⟨hb1, hb2⟩ := processBlocks_quota_invariant env c y hq blocks
        { st with visited := st.visited ++ [(i, j)] } (by rw [e1]; exact hst)
      rw [e1, e2] at hb2
      by_cases hcq : quotaCheck (some q)
          (processBlocks env c y (some q) blocks
            { st with visited := st.visited ++ [(i, j)] }).count = true
      case pos =>
        rw [if_pos hcq]
        exact ⟨hb1, hb2⟩
      case neg =>
        rw [if_neg hcq]
        obtain ⟨ih1, ih2⟩ := ih _ hb1
        exact ⟨ih1, by omega⟩

theorem processWindows_quota_invariant (env : Env) (c : String) (y : Int) {q : Nat}
    (hq : q ≠ 0) (p : Int) :
    ∀ (ws : List Nat) (st : RunState), st.count ≤ q →
      (processWindows env c y (some q) p ws st).count ≤ q
      ∧ (processWindows env c y (some q) p ws st).records.length + st.count
          = st.records.length + (processWindows env c y (some q) p ws st).count := by
  intro ws
  induction ws with
  | nil => intro st hst; exact ⟨hst, rfl⟩
  | cons i rest ih =>
    intro st hst
    simp only [processWindows]
    obtain ⟨hp1, hp2⟩ := processPages_quota_invariant env c y hq i (pagesList p) st hst
    by_cases hcq : quotaCheck (some q)
        (processPages env c y (some q) i (pagesList p) st).count = true
    case pos =>
      rw [if_pos hcq]
      exact ⟨hp1, hp2⟩
    case neg =>
      rw [if_neg hcq]
      obtain ⟨ih1, ih2⟩ := ih _ hp1
      exact ⟨ih1, by omega⟩

/-- Counterexample to C1 as stated.  The per-entity counter
`articles_processed` is reset to 0 inside the year loop (line 164), so the
quota is not scoped across all of an entity's years.  Concretely: one company,
two years, quota 1, one discoverable article per (year, window 0, page 1) —
the claim allows at most 1 Article for the entity, but the run emits 2. -/
theorem quota_across_years_counterexample :
    ((saveCompanyData envOnePerPage ["X"] [2024, 2025] (some 1)).records.filter
        (fun r => r.company == "X")).length = 2
    ∧ ¬ ((saveCompanyData envOnePerPage ["X"] [2024, 2025] (some 1)).records.filter
        (fun r => r.company == "X")).length ≤ 1 := by decide

/-- C1 (amended).  The quota is scoped per (entity, year) segment, not across
an entity's years: within one company/year body with configured quota `q ≠ 0`,
at most `q` Articles are appended across all of that segment's windows and
pages; and the quota test of line 179 runs before each extraction attempt, so
once `q` articles have been emitted the article loop does not process any
further block. -/
theorem quota_bound_per_company_year (env : Env) (c : String) (y : Int) (q : Nat)
    (st : RunState) (hq : q ≠ 0) :
    (runCompanyYear env c y (some q) st).records.length ≤ st.records.length + q
    ∧ ∀ (bs : List Block) (st2 : RunState), q ≤ st2.count →
        processBlocks env c y (some q) bs st2 = st2 := by
  constructor
  · unfold runCompanyYear
    obtain ⟨h1, h2⟩ := processWindows_quota_invariant env c y hq
      (getPageNo (env.firstPage c y) 0).1
      (List.range ((getPageNo (env.firstPage c y) 0).2 + 1))
      { st with count := 0 } (Nat.zero_le q)
    have e1 : ({ st with count := 0 } : RunState).count = 0 := rfl
    have e2 : ({ st with count := 0 } : RunState).records = st.records := rfl
    rw [e1, e2] at h2
    omega
  · intro bs st2 hge
    cases bs with
    | nil => rfl
    | cons b rest =>
      have htrue : quotaCheck (some q) st2.count = true := by
        simp [quotaCheck, hq, hge]
      simp only [processBlocks, htrue, if_true]

/-- Witness for C1 (amended): a concrete segment with quota 3 appends at most
3 records, and a concrete saturated state is left untouched by the article
loop. -/
theorem quota_bound_witness :
    (runCompanyYear envOnePerPage "X" 2025 (some 3) st0).records.length
      ≤ st0.records.length + 3
    ∧ processBlocks envOnePerPage "X" 2025 (some 3) [validBlock]
        { records := [], count := 3, visited := [] }
      = { records := [], count := 3, visited := [] } :=
  ⟨(quota_bound_per_company_year envOnePerPage "X" 2025 3 st0 (by decide)).1,
   (quota_bound_per_company_year envOnePerPage "X" 2025 3 st0 (by decide)).2
     [validBlock] { records := [], count := 3, visited := [] } (by decide)⟩
